import Mathlib

/-!
Verification of the manifest validation and version-resolution logic of
`src/server/gameinfo.js` (the HappyFunTimes game-manifest reader).

The JavaScript code is shallowly embedded: manifests are association lists of
JavaScript values, in-place mutation of the manifest object becomes explicit
state passing (every pipeline function returns the final state of the
`happyFunTimes` object alongside its outcome), thrown exceptions become a
`fault` outcome and the `return;` soft rejections become a `rejected` outcome.
-/

set_option maxRecDepth 10000

namespace GameInfoSpec

/-- A JavaScript value as it can appear in a parsed game manifest: a string, a
number, a boolean, or an opaque api-version settings bundle (identified by a
natural number, since the code treats the bundle as opaque). -/
inductive JsVal where
  | vStr : String → JsVal
  | vNum : Int → JsVal
  | vBool : Bool → JsVal
  | vBundle : Nat → JsVal
deriving DecidableEq, Repr

/-- A JavaScript object, embedded as its ordered list of own properties. -/
abbrev JsObj := List (String × JsVal)

/-- Reading a property: the first binding of the key, `none` for `undefined`. -/
def getProp : JsObj → String → Option JsVal
  | [], _ => none
  | (k1, v) :: rest, k => if k1 = k then some v else getProp rest k

/-- Writing a property, as JavaScript assignment does: an existing key is
updated in place keeping its position, a new key is appended at the end. -/
def setProp : JsObj → String → JsVal → JsObj
  | [], k, v => [(k, v)]
  | (k1, v1) :: rest, k, v =>
      if k1 = k then (k1, v) :: rest else (k1, v1) :: setProp rest k v

/-- Whether the object has the key as an own property. -/
def hasProp (o : JsObj) (k : String) : Bool := (getProp o k).isSome

/-- JavaScript truthiness of a possibly-undefined value: `undefined`, the empty
string, the number `0` and `false` are falsy, everything else is truthy. -/
def truthy : Option JsVal → Bool
  | none => false
  | some (JsVal.vStr t) => !(t == "")
  | some (JsVal.vNum n) => !(n == 0)
  | some (JsVal.vBool b) => b
  | some (JsVal.vBundle _) => true

/-- JavaScript string coercion `String(v)` of a defined value. -/
def jsToStr : JsVal → String
  | JsVal.vStr t => t
  | JsVal.vNum n => toString n
  | JsVal.vBool b => if b then "true" else "false"
  | JsVal.vBundle _ => "[object Object]"

/-- JavaScript string coercion of a possibly-undefined value, as used for
computed property keys and string concatenation (`String(undefined)` is
`"undefined"`). -/
def jsKeyOf : Option JsVal → String
  | none => "undefined"
  | some v => jsToStr v

/-- Modelled from the spec: `misc.copyProperties` (from `src/server/misc.js`,
which is not among the provided sources; only its caller
`applyDefaultProperties` in `src/server/gameinfo.js` lines 42-47 is). Per the
spec (sections 3 and 4.3), the default cascade copies each key of the defaults
object into the manifest only if the manifest does not already define that key:
a shallow, non-overriding merge. -/
def copyProperties : JsObj → JsObj → JsObj
  | [], dst => dst
  | (k, v) :: rest, dst =>
      copyProperties rest (if hasProp dst k then dst else setProp dst k v)

/-- `applyDefaultProperties(obj, defaults)` from gameinfo.js lines 42-47:
a falsy (undefined) defaults object is a no-op, otherwise the defaults are
merged into `obj` without overriding. -/
def applyDefaultProperties (obj : JsObj) : Option JsObj → JsObj
  | none => obj
  | some d => copyProperties d obj

/-- A parsed semantic version `major.minor.patch`. -/
structure SemVer where
  major : Nat
  minor : Nat
  patch : Nat
deriving DecidableEq, Repr

/-- Splitting a character list on a separator character. -/
def splitCharsAux (sep : Char) : List Char → List Char → List String
  | [], cur => [String.mk cur.reverse]
  | c :: rest, cur =>
      if c = sep then String.mk cur.reverse :: splitCharsAux sep rest []
      else splitCharsAux sep rest (c :: cur)

/-- Splitting a string on a separator character. -/
def splitOnChar (sep : Char) (s : String) : List String := splitCharsAux sep s.data []

/-- A numeric semver component: decimal digits, no leading zero. -/
def parseNatStrict (s : String) : Option Nat :=
  if !s.data.isEmpty && s.data.all Char.isDigit &&
     (!(s.data.head? == some '0') || s.data.length == 1)
  then some (s.data.foldl (fun a c => a * 10 + (c.toNat - 48)) 0)
  else none

/-- Modelled from the spec: the external semantic-version library (`semver`,
section 6 of the spec: "a semantic-version comparison library providing 'is
valid version string' and 'maximum version satisfying a compatible-range
query' operations"). The model covers plain release versions `M.m.p`;
prerelease and build suffixes are not valid in the model. -/
def parseSemver (s : String) : Option SemVer :=
  match splitOnChar '.' s with
  | [a, b, c] =>
      match parseNatStrict a, parseNatStrict b, parseNatStrict c with
      | some ma, some mi, some pa => some ⟨ma, mi, pa⟩
      | _, _, _ => none
  | _ => none

/-- Semantic-version precedence (lexicographic on major, minor, patch). -/
def semverLe (a b : SemVer) : Bool :=
  decide (a.major < b.major ∨
    (a.major = b.major ∧ (a.minor < b.minor ∨
      (a.minor = b.minor ∧ a.patch ≤ b.patch))))

/-- Strict semantic-version precedence. -/
def semverLt (a b : SemVer) : Bool := semverLe a b && !semverLe b a

/-- Modelled from the spec: the caret compatible-range `^req` of the external
semver library ("same leading nonzero version component, and at least the
requested version", spec sections 4.4 and the glossary). -/
def caretSatisfies (req v : SemVer) : Bool :=
  semverLe req v &&
  (if 0 < req.major then v.major == req.major
   else if 0 < req.minor then (v.major == 0) && (v.minor == req.minor)
   else (v.major == 0) && (v.minor == 0) && (v.patch == req.patch))

/-- One step of the maximum-satisfying-version scan: keep the running best
candidate unless the next key parses, satisfies the range and is strictly
higher. -/
def considerVersion (r : SemVer) (best : Option (String × SemVer)) (s : String) :
    Option (String × SemVer) :=
  match parseSemver s with
  | none => best
  | some v =>
      if caretSatisfies r v then
        match best with
        | none => some (s, v)
        | some (bs, bv) => if semverLt bv v then some (s, v) else some (bs, bv)
      else best

/-- Scan of all candidate version keys, threading the best candidate. -/
def maxSatAux (r : SemVer) : List String → Option (String × SemVer) →
    Option (String × SemVer)
  | [], best => best
  | s :: rest, best => maxSatAux r rest (considerVersion r best s)

/-- Modelled from the spec: `semver.maxSatisfying(versions, '^' + req)` — the
highest version among `versions` satisfying the caret range of `req`, or none
when no version satisfies it. -/
def maxSatisfying (versions : List String) (r : SemVer) : Option String :=
  (maxSatAux r versions none).map Prod.fst

/-- Association-list lookup, modelling own-property access on a
string-keyed JavaScript object. -/
def alookup {α : Type} : List (String × α) → String → Option α
  | [], _ => none
  | (k1, v) :: rest, k => if k1 = k then some v else alookup rest k

/-- First `n` characters of a string, as JavaScript `substring(0, n)`. -/
def strTake (s : String) (n : Nat) : String := String.mk (s.data.take n)

/-- Character length of a string, as JavaScript `.length`. -/
def strLen (s : String) : Nat := s.data.length

/-- One step of POSIX path normalization over the list of already-processed
segments (kept in reverse order): empty and `.` segments vanish, `..` pops the
previous segment (staying put above an absolute root, accumulating above a
relative start). -/
def normStep (isAbs : Bool) (acc : List String) (seg : String) : List String :=
  if seg = "" ∨ seg = "." then acc
  else if seg = ".." then
    match acc with
    | [] => if isAbs then [] else [".."]
    | a :: rest => if a = ".." then seg :: acc else rest
  else seg :: acc

/-- Modelled from the spec: `path.normalize` of node's `path` module (an
external collaborator per spec section 6), POSIX flavor — resolves `.` and
`..` segments and collapses repeated separators. -/
def pathNormalize (p : String) : String :=
  if p = "" then "." else
  if p.data.head? = some '/' then
    String.append "/"
      (String.intercalate "/" (((splitOnChar '/' p).foldl (normStep true) []).reverse))
  else
    match String.intercalate "/" (((splitOnChar '/' p).foldl (normStep false) []).reverse) with
    | "" => "."
    | core => core

/-- Modelled from the spec: `path.join(a, b)` of node's `path` module —
concatenate with a separator and normalize, ignoring empty arguments. -/
def pathJoin (a b : String) : String :=
  if a = "" && b = "" then "."
  else if a = "" then pathNormalize b
  else if b = "" then pathNormalize a
  else pathNormalize (String.append a (String.append "/" b))

/-- Modelled from the spec: `path.dirname` of node's `path` module, POSIX
flavor — the path without its trailing separators and last component. -/
def pathDirname (p : String) : String :=
  if p.data.isEmpty then "." else
  match (((p.data.reverse.dropWhile (fun c => c = '/'))).dropWhile
      (fun c => c ≠ '/')).length with
  | 0 => if p.data.head? = some '/' then "/" else "."
  | 1 => if p.data.head? = some '/' then "/" else "."
  | 2 => if p.data.head? = some '/' then "//" else String.mk (p.data.take 1)
  | Nat.succ w => String.mk (p.data.take w)

/-- The character class of the gameId regular expression
`/^[a-zA-Z0-9-_]+$/` from gameinfo.js line 71. -/
def gameIdCharOK (c : Char) : Bool :=
  ('a' ≤ c && c ≤ 'z') || ('A' ≤ c && c ≤ 'Z') || ('0' ≤ c && c ≤ '9') ||
  c == '-' || c == '_'

/-- The test `idRE.test(id)` of the regular expression `/^[a-zA-Z0-9-_]+$/`
on the coerced string: nonempty and all characters in the class. -/
def gameIdRe (t : String) : Bool := !(t == "") && t.data.all gameIdCharOK

/-- `validGameId` from gameinfo.js lines 70-84: falsy ids are rejected first,
then the charset regular expression is tested on the string coercion of the
id, then strings longer than 60 characters are rejected (a non-string id has
no `.length`, so `id.length > 60` is false for it). -/
def validGameId (v : Option JsVal) : Except String Unit :=
  if !truthy v then Except.error "gameId not defined"
  else if !gameIdRe (jsKeyOf v) then
    Except.error "invalid characters in gameId only A-Z a-z 0-9 _ - allowed"
  else
    match v with
    | some (JsVal.vStr t) =>
        if t.length > 60 then Except.error "gameId must be less than 60 characters"
        else Except.ok ()
    | _ => Except.ok ()

/-- `validSemver` from gameinfo.js lines 100-104: `semver.valid` accepts only
a string holding a valid semantic version. -/
def validSemver (v : Option JsVal) : Except String Unit :=
  match v with
  | some (JsVal.vStr t) =>
      if (parseSemver t).isSome then Except.ok ()
      else Except.error "not a valid semver"
  | _ => Except.error "not a valid semver"

/-- `validString` from gameinfo.js lines 106-110. -/
def validString (v : Option JsVal) : Except String Unit :=
  match v with
  | some (JsVal.vStr _) => Except.ok ()
  | _ => Except.error "not a string"

/-- `validNumber` from gameinfo.js lines 112-116. -/
def validNumber (v : Option JsVal) : Except String Unit :=
  match v with
  | some (JsVal.vNum _) => Except.ok ()
  | _ => Except.error "not a number"

/-- `validateObject(hftInfo, requiredFields)` from gameinfo.js lines 122-139:
the required-field table is checked in object-key insertion order (gameId,
apiVersion, gameType, category, minPlayers), failing fast with the field name
prefixed to the underlying reason. -/
def validateObject (o : JsObj) : Except String Unit :=
  match validGameId (getProp o "gameId") with
  | Except.error e => Except.error (String.append "gameId: " e)
  | Except.ok _ =>
  match validSemver (getProp o "apiVersion") with
  | Except.error e => Except.error (String.append "apiVersion: " e)
  | Except.ok _ =>
  match validString (getProp o "gameType") with
  | Except.error e => Except.error (String.append "gameType: " e)
  | Except.ok _ =>
  match validString (getProp o "category") with
  | Except.error e => Except.error (String.append "category: " e)
  | Except.ok _ =>
  match validNumber (getProp o "minPlayers") with
  | Except.error e => Except.error (String.append "minPlayers: " e)
  | Except.ok _ => Except.ok ()

/-- The settings object from `config.getSettings()` (gameinfo.js line 224):
global defaults (possibly undefined), per-gameType defaults keyed by gameType,
and the settings bundle table keyed by exact version strings, with bundles
kept opaque. -/
structure Settings where
  hftDefaults : Option JsObj
  hftGameTypeDefaults : List (String × JsObj)
  apiVersionSettings : List (String × Nat)
deriving DecidableEq, Repr

/-- Lines 225-226 of gameinfo.js: global defaults merged first, then the
gameType-specific defaults looked up by the possibly already-defaulted
gameType value (coerced to a property key). -/
def defaultedManifest (s : Settings) (hft0 : JsObj) : JsObj :=
  applyDefaultProperties (applyDefaultProperties hft0 s.hftDefaults)
    (alookup s.hftGameTypeDefaults
      (jsKeyOf (getProp (applyDefaultProperties hft0 s.hftDefaults) "gameType")))

/-- The outcome of `parseGameInfo`: a thrown fault, a soft rejection (the
bare `return;`), or success carrying the final `happyFunTimes` object. -/
inductive ParseOutcome where
  | fault : String → ParseOutcome
  | rejected : ParseOutcome
  | ok : JsObj → ParseOutcome
deriving DecidableEq, Repr

/-- Line 288 of gameinfo.js, applied to `gameUrl` and `screenshotUrl`: a
truthy url field is rebased under the per-game public path derived from the
(string-coerced) gameId. -/
def fixUrl (hft : JsObj) (name : String) : JsObj :=
  match getProp hft name with
  | none => hft
  | some v =>
      if truthy (some v) then
        setProp hft name (JsVal.vStr (String.append
          (String.append (String.append "/games/" (jsKeyOf (getProp hft "gameId"))) "/")
          (jsToStr v)))
      else hft

/-- Lines 303-309 of gameinfo.js: record `basePath` and return the manifest
(the returned object and the caller's mutated object are one and the same). -/
def finishInfo (hft : JsObj) (base : String) : ParseOutcome × JsObj :=
  (ParseOutcome.ok (setProp hft "basePath" (JsVal.vStr base)),
   setProp hft "basePath" (JsVal.vStr base))

/-- Lines 292-301 of gameinfo.js for a nonempty string `gameExecutable`:
join it onto the game directory, store the joined path back on the manifest,
and throw unless the base directory is literally the leading substring of the
normalized path (`fullPath.substring(0, gameBasePath.length)`). -/
def execCheck (hft : JsObj) (base : String) (es : String) : ParseOutcome × JsObj :=
  if base = strTake (pathNormalize (pathJoin base es)) (strLen base) then
    finishInfo (setProp hft "gameExecutable" (JsVal.vStr (pathJoin base es))) base
  else
    (ParseOutcome.fault (String.append "bad path for game executable: "
        (pathNormalize (pathJoin base es))),
     setProp hft "gameExecutable" (JsVal.vStr (pathJoin base es)))

/-- The `gameExecutable` step (lines 292-301): skipped for a falsy field; a
truthy non-string makes node's `path.join` throw a TypeError, which the outer
catch re-throws. -/
def execStep (hft : JsObj) (base : String) : ParseOutcome × JsObj :=
  match getProp hft "gameExecutable" with
  | some (JsVal.vStr es) => if es = "" then finishInfo hft base else execCheck hft base es
  | some v =>
      if truthy (some v) then
        (ParseOutcome.fault "path must be a string", hft)
      else finishInfo hft base
  | none => finishInfo hft base

/-- Lines 268-309 of gameinfo.js, after the version settings were attached:
reject a falsy gameType, rewrite the url fields, then run the executable
check and finish. -/
def hftContinue (hft : JsObj) (base : String) : ParseOutcome × JsObj :=
  if truthy (getProp hft "gameType") then
    execStep (fixUrl (fixUrl hft "gameUrl") "screenshotUrl") base
  else (ParseOutcome.rejected, hft)

/-- Lines 255-266 of gameinfo.js when no available version satisfies the
range: set `needNewHFT`, fall back to the synthetic version
`0.0.0-unsupportedApiVersion`, and reject when (as the spec assumes) that
synthetic key has no settings bundle. -/
def versionFail (s : Settings) (hft : JsObj) (base : String) : ParseOutcome × JsObj :=
  match alookup s.apiVersionSettings "0.0.0-unsupportedApiVersion" with
  | some b =>
      hftContinue (setProp (setProp hft "needNewHFT" (JsVal.vBool true))
        "versionSettings" (JsVal.vBundle b)) base
  | none => (ParseOutcome.rejected, setProp hft "needNewHFT" (JsVal.vBool true))

/-- The requested version of the manifest, as fed to the caret range
`'^' + hftInfo.apiVersion` (line 253); after validation the field is always a
string holding a valid version. -/
def reqSemverOf (hft : JsObj) : Option SemVer :=
  match getProp hft "apiVersion" with
  | some (JsVal.vStr t) => parseSemver t
  | _ => none

/-- Lines 252-266 of gameinfo.js: resolve the maximum satisfying version among
the keys of `apiVersionSettings` and attach its bundle as `versionSettings`
(an unparseable range would make the semver library throw). -/
def versionStep (s : Settings) (hft : JsObj) (base : String) : ParseOutcome × JsObj :=
  match reqSemverOf hft with
  | none => (ParseOutcome.fault "Invalid Version", hft)
  | some r =>
      match maxSatisfying (s.apiVersionSettings.map Prod.fst) r with
      | none => versionFail s hft base
      | some best =>
          match alookup s.apiVersionSettings best with
          | none => (ParseOutcome.rejected, hft)
          | some b =>
              hftContinue (setProp hft "versionSettings" (JsVal.vBundle b)) base

/-- Lines 236-240 of gameinfo.js: an unknown gameType (no entry in
`hftGameTypeDefaults`) is rejected, then version resolution runs. -/
def afterValidate (s : Settings) (hft : JsObj) (base : String) : ParseOutcome × JsObj :=
  match alookup s.hftGameTypeDefaults (jsKeyOf (getProp hft "gameType")) with
  | none => (ParseOutcome.rejected, hft)
  | some _ => versionStep s hft base

/-- `GameInfo.prototype.parseGameInfo` from gameinfo.js lines 214-310, on an
already-JSON-parsed package whose `happyFunTimes` section is the given
optional object. The second component is the final state of the (in JavaScript
mutated-in-place) `happyFunTimes` object, returned even when the manifest is
rejected or a fault is thrown. -/
def parseGameInfo (s : Settings) (pkgHft : Option JsObj) (filePath : String) :
    ParseOutcome × JsObj :=
  match pkgHft with
  | none => (ParseOutcome.rejected, [])
  | some hft0 =>
      match validateObject (defaultedManifest s hft0) with
      | Except.error _ => (ParseOutcome.rejected, defaultedManifest s hft0)
      | Except.ok _ =>
          afterValidate s (defaultedManifest s hft0) (pathDirname filePath)

/-- Example settings: gameType `html` known, api versions 1.0.0, 1.2.0 and
2.0.0 with distinct opaque bundles. -/
def cfgThree : Settings :=
  ⟨some [], [("html", [])], [("1.0.0", 10), ("1.2.0", 12), ("2.0.0", 20)]⟩

/-- Example manifest requesting api version 1.0.0. -/
def manOne : JsObj :=
  [("gameId", JsVal.vStr "g"), ("apiVersion", JsVal.vStr "1.0.0"),
   ("gameType", JsVal.vStr "html"), ("category", JsVal.vStr "c"),
   ("minPlayers", JsVal.vNum 2)]

/-- Example manifest requesting the unsupported api version 9.0.0. -/
def manNine : JsObj :=
  [("gameId", JsVal.vStr "g"), ("apiVersion", JsVal.vStr "9.0.0"),
   ("gameType", JsVal.vStr "html"), ("category", JsVal.vStr "c"),
   ("minPlayers", JsVal.vNum 2)]

/-- Example manifest with the unknown gameType `quux`. -/
def manQuux : JsObj :=
  [("gameId", JsVal.vStr "g"), ("apiVersion", JsVal.vStr "1.0.0"),
   ("gameType", JsVal.vStr "quux"), ("category", JsVal.vStr "c"),
   ("minPlayers", JsVal.vNum 2)]

/-- Settings for the gameExecutable examples: one api version, bundle 7. -/
def cfgExec : Settings := ⟨some [], [("html", [])], [("1.0.0", 7)]⟩

/-- Manifest whose executable `../bar.exe` resolves outside the game
directory and fails the prefix comparison. -/
def manExecBar : JsObj :=
  [("gameId", JsVal.vStr "foo"), ("apiVersion", JsVal.vStr "1.0.0"),
   ("gameType", JsVal.vStr "html"), ("category", JsVal.vStr "c"),
   ("minPlayers", JsVal.vNum 1), ("gameExecutable", JsVal.vStr "../bar.exe")]

/-- Manifest whose executable `../foobar/x.exe` resolves outside the game
directory `/games/foo` but into the sibling `/games/foobar`, whose name the
base directory is a raw string prefix of. -/
def manExecFoobar : JsObj :=
  [("gameId", JsVal.vStr "foo"), ("apiVersion", JsVal.vStr "1.0.0"),
   ("gameType", JsVal.vStr "html"), ("category", JsVal.vStr "c"),
   ("minPlayers", JsVal.vNum 1), ("gameExecutable", JsVal.vStr "../foobar/x.exe")]

/-- Manifest with an executable safely inside the game directory. -/
def manExecIn : JsObj :=
  [("gameId", JsVal.vStr "foo"), ("apiVersion", JsVal.vStr "1.0.0"),
   ("gameType", JsVal.vStr "html"), ("category", JsVal.vStr "c"),
   ("minPlayers", JsVal.vNum 1), ("gameExecutable", JsVal.vStr "bin/app")]

/-- Settings whose gameType defaults table contains the empty string key. -/
def cfgEmptyType : Settings := ⟨some [], [("", [])], [("1.0.0", 0)]⟩

/-- Manifest whose gameType is the empty string — a valid string, and a key
of `cfgEmptyType.hftGameTypeDefaults`, but falsy. -/
def manEmptyType : JsObj :=
  [("gameId", JsVal.vStr "a"), ("apiVersion", JsVal.vStr "1.0.0"),
   ("gameType", JsVal.vStr ""), ("category", JsVal.vStr "x"),
   ("minPlayers", JsVal.vNum 1)]

/-- Settings whose global defaults supply `minPlayers`. -/
def cfgDefaults : Settings :=
  ⟨some [("minPlayers", JsVal.vNum 2)], [("html", [])], [("1.0.0", 1)]⟩

/-- Manifest lacking `apiVersion`, so that validation fails after the
defaults were already merged in. -/
def manNoApi : JsObj :=
  [("gameId", JsVal.vStr "g"), ("gameType", JsVal.vStr "html"),
   ("category", JsVal.vStr "c")]

theorem getProp_setProp_self (o : JsObj) (k : String) (v : JsVal) :
    getProp (setProp o k v) k = some v := by
  induction o with
  | nil => simp [setProp, getProp]
  | cons p rest ih =>
    obtain ⟨k1, v1⟩ := p
    by_cases h : k1 = k
    · simp [setProp, getProp, h]
    · simp [setProp, getProp, h, ih]

theorem getProp_setProp_ne (o : JsObj) (k k2 : String) (v : JsVal)
    (h : k2 ≠ k) : getProp (setProp o k v) k2 = getProp o k2 := by
  have hne : ¬ k = k2 := fun hh => h hh.symm
  induction o with
  | nil => simp [setProp, getProp, hne]
  | cons p rest ih =>
    obtain ⟨k1, v1⟩ := p
    by_cases h1 : k1 = k
    · subst h1
      simp [setProp, getProp, hne]
    · simp [setProp, getProp, h1, ih]

theorem copyProperties_preserves (src : JsObj) : ∀ (dst : JsObj) (k : String),
    (getProp dst k).isSome → getProp (copyProperties src dst) k = getProp dst k := by
  induction src with
  | nil => intro dst k _; rfl
  | cons p rest ih =>
    intro dst k h
    obtain ⟨k1, v1⟩ := p
    by_cases hk : hasProp dst k1
    · simpa [copyProperties, hk] using ih dst k h
    · by_cases he : k1 = k
      · subst he
        exact absurd h (by simpa [hasProp] using hk)
      · have hne : k ≠ k1 := fun hh => he hh.symm
        have hpres := getProp_setProp_ne dst k1 k v1 hne
        have hs : (getProp (setProp dst k1 v1) k).isSome := by
          rw [hpres]; exact h
        calc getProp (copyProperties ((k1, v1) :: rest) dst) k
            = getProp (copyProperties rest (setProp dst k1 v1)) k := by
              simp [copyProperties, hk]
          _ = getProp (setProp dst k1 v1) k := ih _ k hs
          _ = getProp dst k := hpres

theorem copyProperties_absent (src : JsObj) : ∀ (dst : JsObj) (k : String),
    getProp dst k = none → getProp (copyProperties src dst) k = getProp src k := by
  induction src with
  | nil => intro dst k h; simpa [copyProperties, getProp] using h
  | cons p rest ih =>
    intro dst k h
    obtain ⟨k1, v1⟩ := p
    by_cases he : k1 = k
    · subst he
      have hk : hasProp dst k1 = false := by simp [hasProp, h]
      have hset : getProp (setProp dst k1 v1) k1 = some v1 :=
        getProp_setProp_self dst k1 v1
      have : getProp (copyProperties rest (setProp dst k1 v1)) k1 = some v1 := by
        rw [copyProperties_preserves rest _ k1 (by rw [hset]; rfl)]
        exact hset
      simpa [copyProperties, hk, getProp] using this
    · have hne : k ≠ k1 := fun hh => he hh.symm
      by_cases hk : hasProp dst k1
      · have := ih dst k h
        simpa [copyProperties, hk, getProp, he] using this
      · have hnone : getProp (setProp dst k1 v1) k = none := by
          rw [getProp_setProp_ne dst k1 k v1 hne]; exact h
        have := ih (setProp dst k1 v1) k hnone
        simpa [copyProperties, hk, getProp, he] using this

theorem semverLe_refl (a : SemVer) : semverLe a a = true := by
  simp [semverLe]

theorem semverLe_trans {a b c : SemVer} (h1 : semverLe a b = true)
    (h2 : semverLe b c = true) : semverLe a c = true := by
  simp only [semverLe, decide_eq_true_eq] at h1 h2 ⊢
  omega

theorem semverLt_false_le {a b : SemVer} (h : semverLt a b = false) :
    semverLe b a = true := by
  simp only [semverLt, semverLe, Bool.and_eq_false_iff, Bool.not_eq_false',
    decide_eq_true_eq, decide_eq_false_iff_not] at h
  simp only [semverLe, decide_eq_true_eq]
  omega

theorem semverLt_le {a b : SemVer} (h : semverLt a b = true) :
    semverLe a b = true := by
  simp only [semverLt, Bool.and_eq_true] at h
  exact h.1

theorem considerVersion_cases (r : SemVer) (best : Option (String × SemVer))
    (s : String) :
    considerVersion r best s = best ∨
    ∃ v, parseSemver s = some v ∧ caretSatisfies r v = true ∧
      considerVersion r best s = some (s, v) := by
  cases hp : parseSemver s with
  | none => left; simp [considerVersion, hp]
  | some v =>
    by_cases hsat : caretSatisfies r v = true
    · cases best with
      | none => right; exact ⟨v, rfl, hsat, by simp [considerVersion, hp, hsat]⟩
      | some p =>
        obtain ⟨bs, bv⟩ := p
        by_cases hlt : semverLt bv v = true
        · right; exact ⟨v, rfl, hsat, by simp [considerVersion, hp, hsat, hlt]⟩
        · left; simp [considerVersion, hp, hsat, hlt]
    · left; simp [considerVersion, hp, hsat]

theorem considerVersion_good (r : SemVer) (best : Option (String × SemVer))
    (s : String)
    (h : ∀ bs bv, best = some (bs, bv) →
      parseSemver bs = some bv ∧ caretSatisfies r bv = true) :
    ∀ cs cv, considerVersion r best s = some (cs, cv) →
      parseSemver cs = some cv ∧ caretSatisfies r cv = true := by
  intro cs cv hc
  rcases considerVersion_cases r best s with hsame | ⟨v, hp, hsat, hnew⟩
  · exact h cs cv (by rw [← hsame]; exact hc)
  · rw [hnew] at hc
    simp only [Option.some.injEq, Prod.mk.injEq] at hc
    obtain ⟨h1, h2⟩ := hc
    subst h1; subst h2
    exact ⟨hp, hsat⟩

theorem considerVersion_dom_best (r : SemVer) (bs : String) (bv : SemVer)
    (s : String) :
    ∃ cs cv, considerVersion r (some (bs, bv)) s = some (cs, cv) ∧
      semverLe bv cv = true := by
  cases hp : parseSemver s with
  | none => exact ⟨bs, bv, by simp [considerVersion, hp], semverLe_refl bv⟩
  | some v =>
    by_cases hsat : caretSatisfies r v = true
    · by_cases hlt : semverLt bv v = true
      · exact ⟨s, v, by simp [considerVersion, hp, hsat, hlt], semverLt_le hlt⟩
      · exact ⟨bs, bv, by simp [considerVersion, hp, hsat, hlt], semverLe_refl bv⟩
    · exact ⟨bs, bv, by simp [considerVersion, hp, hsat], semverLe_refl bv⟩

theorem considerVersion_dom_elem (r : SemVer) (best : Option (String × SemVer))
    (s : String) (v : SemVer) (hp : parseSemver s = some v)
    (hsat : caretSatisfies r v = true) :
    ∃ cs cv, considerVersion r best s = some (cs, cv) ∧ semverLe v cv = true := by
  cases best with
  | none => exact ⟨s, v, by simp [considerVersion, hp, hsat], semverLe_refl v⟩
  | some p =>
    obtain ⟨bs, bv⟩ := p
    by_cases hlt : semverLt bv v = true
    · exact ⟨s, v, by simp [considerVersion, hp, hsat, hlt], semverLe_refl v⟩
    · exact ⟨bs, bv, by simp [considerVersion, hp, hsat, hlt],
        semverLt_false_le (Bool.eq_false_iff.mpr hlt)⟩

theorem maxSatAux_dom_best (r : SemVer) : ∀ (l : List String) (bs : String)
    (bv : SemVer), ∃ ks kv, maxSatAux r l (some (bs, bv)) = some (ks, kv) ∧
      semverLe bv kv = true := by
  intro l
  induction l with
  | nil => intro bs bv; exact ⟨bs, bv, rfl, semverLe_refl bv⟩
  | cons s rest ih =>
    intro bs bv
    obtain ⟨cs, cv, hc, hle⟩ := considerVersion_dom_best r bs bv s
    obtain ⟨ks, kv, hk, hle2⟩ := ih cs cv
    refine ⟨ks, kv, ?_, semverLe_trans hle hle2⟩
    simpa [maxSatAux, hc] using hk

theorem maxSatAux_dom_elems (r : SemVer) : ∀ (l : List String)
    (best : Option (String × SemVer)) (ks : String) (kv : SemVer),
    maxSatAux r l best = some (ks, kv) →
    ∀ k ∈ l, ∀ v, parseSemver k = some v → caretSatisfies r v = true →
      semverLe v kv = true := by
  intro l
  induction l with
  | nil => intro best ks kv _ k hk; simp at hk
  | cons s rest ih =>
    intro best ks kv h k hk v hp hsat
    have hstep : maxSatAux r rest (considerVersion r best s) = some (ks, kv) := h
    rcases List.mem_cons.mp hk with hks | hkrest
    · subst hks
      obtain ⟨cs, cv, hc, hle⟩ := considerVersion_dom_elem r best k v hp hsat
      rw [hc] at hstep
      obtain ⟨ks2, kv2, hk2, hle2⟩ := maxSatAux_dom_best r rest cs cv
      rw [hstep] at hk2
      simp only [Option.some.injEq, Prod.mk.injEq] at hk2
      obtain ⟨h1, h2⟩ := hk2
      subst h2
      exact semverLe_trans hle hle2
    · exact ih (considerVersion r best s) ks kv hstep k hkrest v hp hsat

theorem maxSatAux_sound (r : SemVer) : ∀ (l : List String)
    (best : Option (String × SemVer)),
    (∀ bs bv, best = some (bs, bv) →
      parseSemver bs = some bv ∧ caretSatisfies r bv = true) →
    ∀ ks kv, maxSatAux r l best = some (ks, kv) →
      parseSemver ks = some kv ∧ caretSatisfies r kv = true ∧
      (ks ∈ l ∨ best = some (ks, kv)) := by
  intro l
  induction l with
  | nil =>
    intro best hgood ks kv h
    obtain ⟨h1, h2⟩ := hgood ks kv h
    exact ⟨h1, h2, Or.inr h⟩
  | cons s rest ih =>
    intro best hgood ks kv h
    have hstep : maxSatAux r rest (considerVersion r best s) = some (ks, kv) := h
    have hgood2 := considerVersion_good r best s hgood
    obtain ⟨h1, h2, h3⟩ := ih (considerVersion r best s) hgood2 ks kv hstep
    refine ⟨h1, h2, ?_⟩
    rcases h3 with hmem | heq
    · exact Or.inl (List.mem_cons_of_mem s hmem)
    · rcases considerVersion_cases r best s with hsame | ⟨v, _, _, hnew⟩
      · exact Or.inr (hsame ▸ heq)
      · rw [hnew] at heq
        simp only [Option.some.injEq, Prod.mk.injEq] at heq
        exact Or.inl (heq.1 ▸ List.mem_cons_self s rest)

theorem maxSatAux_isSome_of_sat (r : SemVer) : ∀ (l : List String)
    (best : Option (String × SemVer)) (k : String) (v : SemVer),
    k ∈ l → parseSemver k = some v → caretSatisfies r v = true →
    ∃ p, maxSatAux r l best = some p := by
  intro l
  induction l with
  | nil => intro best k v hk; simp at hk
  | cons s rest ih =>
    intro best k v hk hp hsat
    rcases List.mem_cons.mp hk with hks | hkrest
    · subst hks
      obtain ⟨cs, cv, hc, _⟩ := considerVersion_dom_elem r best k v hp hsat
      obtain ⟨ks, kv, hk2, _⟩ := maxSatAux_dom_best r rest cs cv
      exact ⟨(ks, kv), by simpa [maxSatAux, hc] using hk2⟩
    · exact ih (considerVersion r best s) k v hkrest hp hsat

theorem maxSatAux_none_of_nosat (r : SemVer) : ∀ (l : List String),
    (∀ k ∈ l, ∀ v, parseSemver k = some v → caretSatisfies r v = false) →
    maxSatAux r l none = none := by
  intro l
  induction l with
  | nil => intro _; rfl
  | cons s rest ih =>
    intro h
    have hcon : considerVersion r none s = none := by
      unfold considerVersion
      cases hp : parseSemver s with
      | none => rfl
      | some v =>
        have := h s (List.mem_cons_self s rest) v hp
        simp [this]
    have : maxSatAux r (s :: rest) none = maxSatAux r rest (considerVersion r none s) := rfl
    rw [this, hcon]
    exact ih (fun k hk => h k (List.mem_cons_of_mem s hk))

theorem maxSatisfying_spec (l : List String) (r : SemVer) (ks : String)
    (h : maxSatisfying l r = some ks) :
    ∃ kv, parseSemver ks = some kv ∧ caretSatisfies r kv = true ∧ ks ∈ l ∧
      ∀ k ∈ l, ∀ v, parseSemver k = some v → caretSatisfies r v = true →
        semverLe v kv = true := by
  unfold maxSatisfying at h
  cases haux : maxSatAux r l none with
  | none => rw [haux] at h; simp at h
  | some p =>
    obtain ⟨ks2, kv⟩ := p
    rw [haux] at h
    simp only [Option.map_some'] at h
    have hks : ks2 = ks := Option.some.inj h
    subst hks
    obtain ⟨h1, h2, h3⟩ := maxSatAux_sound r l none (by intro bs bv hc; cases hc) ks2 kv haux
    rcases h3 with hmem | habs
    · exact ⟨kv, h1, h2, hmem, maxSatAux_dom_elems r l none ks2 kv haux⟩
    · cases habs

theorem maxSatisfying_isSome (l : List String) (r : SemVer) (k : String)
    (v : SemVer) (hk : k ∈ l) (hp : parseSemver k = some v)
    (hsat : caretSatisfies r v = true) :
    ∃ ks, maxSatisfying l r = some ks := by
  obtain ⟨p, hp2⟩ := maxSatAux_isSome_of_sat r l none k v hk hp hsat
  exact ⟨p.1, by simp [maxSatisfying, hp2]⟩

theorem maxSatisfying_none (l : List String) (r : SemVer)
    (h : ∀ k ∈ l, ∀ v, parseSemver k = some v → caretSatisfies r v = false) :
    maxSatisfying l r = none := by
  simp [maxSatisfying, maxSatAux_none_of_nosat r l h]

theorem alookup_isSome_of_mem {α : Type} (l : List (String × α)) (k : String)
    (h : k ∈ l.map Prod.fst) : ∃ b, alookup l k = some b := by
  induction l with
  | nil => simp at h
  | cons p rest ih =>
    obtain ⟨k1, v1⟩ := p
    by_cases he : k1 = k
    · exact ⟨v1, by simp [alookup, he]⟩
    · have : k ∈ rest.map Prod.fst := by
        simpa [he, Ne.symm he] using h
      obtain ⟨b, hb⟩ := ih this
      exact ⟨b, by simp [alookup, he, hb]⟩

theorem fixUrl_preserves (hft : JsObj) (name k : String) (h : k ≠ name) :
    getProp (fixUrl hft name) k = getProp hft k := by
  cases hv : getProp hft name with
  | none => simp [fixUrl, hv]
  | some v =>
    by_cases ht : truthy (some v) = true
    · simp only [fixUrl, hv, ht, if_true]
      exact getProp_setProp_ne hft name k _ h
    · simp [fixUrl, hv, ht]

theorem execCheck_snd (hft : JsObj) (base es k : String)
    (h3 : k ≠ "gameExecutable") (h4 : k ≠ "basePath") :
    getProp (execCheck hft base es).2 k = getProp hft k := by
  unfold execCheck finishInfo
  by_cases hc : base = strTake (pathNormalize (pathJoin base es)) (strLen base)
  · rw [if_pos hc]
    show getProp (setProp (setProp hft "gameExecutable" _) "basePath" _) k = _
    rw [getProp_setProp_ne _ _ _ _ h4, getProp_setProp_ne _ _ _ _ h3]
  · rw [if_neg hc]
    exact getProp_setProp_ne _ _ _ _ h3

theorem execStep_snd (hft : JsObj) (base k : String)
    (h3 : k ≠ "gameExecutable") (h4 : k ≠ "basePath") :
    getProp (execStep hft base).2 k = getProp hft k := by
  cases hv : getProp hft "gameExecutable" with
  | none =>
    simp only [execStep, hv, finishInfo]
    exact getProp_setProp_ne _ _ _ _ h4
  | some v =>
    cases v with
    | vStr es =>
      by_cases he : es = ""
      · simp only [execStep, hv, he, if_pos rfl, finishInfo]
        exact getProp_setProp_ne _ _ _ _ h4
      · simp only [execStep, hv, if_neg he]
        exact execCheck_snd hft base es k h3 h4
    | vNum n =>
      by_cases ht : truthy (some (JsVal.vNum n)) = true
      · simp [execStep, hv, ht]
      · simp only [execStep, hv, ht, if_false, Bool.false_eq_true, finishInfo]
        exact getProp_setProp_ne _ _ _ _ h4
    | vBool b =>
      by_cases ht : truthy (some (JsVal.vBool b)) = true
      · simp [execStep, hv, ht]
      · simp only [execStep, hv, ht, if_false, Bool.false_eq_true, finishInfo]
        exact getProp_setProp_ne _ _ _ _ h4
    | vBundle b =>
      simp [execStep, hv, truthy]

theorem hftContinue_snd (hft : JsObj) (base k : String)
    (h1 : k ≠ "gameUrl") (h2 : k ≠ "screenshotUrl")
    (h3 : k ≠ "gameExecutable") (h4 : k ≠ "basePath") :
    getProp (hftContinue hft base).2 k = getProp hft k := by
  unfold hftContinue
  by_cases ht : truthy (getProp hft "gameType") = true
  · rw [if_pos ht, execStep_snd _ _ _ h3 h4, fixUrl_preserves _ _ _ h2,
      fixUrl_preserves _ _ _ h1]
  · rw [if_neg ht]

theorem execCheck_ok_snd (hft : JsObj) (base es : String) (out : JsObj)
    (h : (execCheck hft base es).1 = ParseOutcome.ok out) :
    (execCheck hft base es).2 = out := by
  unfold execCheck finishInfo at h ⊢
  by_cases hc : base = strTake (pathNormalize (pathJoin base es)) (strLen base)
  · rw [if_pos hc] at h ⊢
    exact ParseOutcome.ok.inj h
  · rw [if_neg hc] at h
    cases h

theorem execStep_ok_snd (hft : JsObj) (base : String) (out : JsObj)
    (h : (execStep hft base).1 = ParseOutcome.ok out) :
    (execStep hft base).2 = out := by
  cases hv : getProp hft "gameExecutable" with
  | none =>
    simp only [execStep, hv, finishInfo] at h ⊢
    exact ParseOutcome.ok.inj h
  | some v =>
    cases v with
    | vStr es =>
      by_cases he : es = ""
      · simp only [execStep, hv, he, if_pos rfl, finishInfo] at h ⊢
        exact ParseOutcome.ok.inj h
      · simp only [execStep, hv, if_neg he] at h ⊢
        exact execCheck_ok_snd hft base es out h
    | vNum n =>
      by_cases ht : truthy (some (JsVal.vNum n)) = true
      · simp [execStep, hv, ht] at h
      · simp only [execStep, hv, ht, if_false, Bool.false_eq_true, finishInfo] at h ⊢
        exact ParseOutcome.ok.inj h
    | vBool b =>
      by_cases ht : truthy (some (JsVal.vBool b)) = true
      · simp [execStep, hv, ht] at h
      · simp only [execStep, hv, ht, if_false, Bool.false_eq_true, finishInfo] at h ⊢
        exact ParseOutcome.ok.inj h
    | vBundle b =>
      simp [execStep, hv, truthy] at h

theorem hftContinue_ok_snd (hft : JsObj) (base : String) (out : JsObj)
    (h : (hftContinue hft base).1 = ParseOutcome.ok out) :
    (hftContinue hft base).2 = out := by
  unfold hftContinue at h ⊢
  by_cases ht : truthy (getProp hft "gameType") = true
  · rw [if_pos ht] at h ⊢
    exact execStep_ok_snd _ base out h
  · rw [if_neg ht] at h
    cases h

theorem validSemver_ok (v : Option JsVal) (h : validSemver v = Except.ok ()) :
    ∃ t r, v = some (JsVal.vStr t) ∧ parseSemver t = some r := by
  cases v with
  | none => simp [validSemver] at h
  | some w =>
    cases w with
    | vStr t =>
      by_cases hp : (parseSemver t).isSome = true
      · obtain ⟨r, hr⟩ := Option.isSome_iff_exists.mp hp
        exact ⟨t, r, rfl, hr⟩
      · simp [validSemver, hp] at h
    | vNum n => simp [validSemver] at h
    | vBool b => simp [validSemver] at h
    | vBundle b => simp [validSemver] at h

theorem validateObject_apiVersion (o : JsObj)
    (h : validateObject o = Except.ok ()) :
    ∃ a r, getProp o "apiVersion" = some (JsVal.vStr a) ∧
      parseSemver a = some r := by
  unfold validateObject at h
  split at h
  · cases h
  · split at h
    · cases h
    · rename_i u heq
      cases u
      obtain ⟨t, r, hv, hr⟩ := validSemver_ok _ heq
      exact ⟨t, r, hv, hr⟩

theorem nosat_of_all (l : List String) (r : SemVer)
    (h : l.all (fun k => match parseSemver k with
      | some v => !caretSatisfies r v
      | none => true) = true) :
    ∀ k ∈ l, ∀ v, parseSemver k = some v → caretSatisfies r v = false := by
  intro k hk v hv
  have hx := List.all_eq_true.mp h k hk
  simp only [hv] at hx
  simpa using hx

/-- C3: the default cascade is non-overriding — for every manifest, defaults
object and key, a key already defined on the manifest keeps its manifest
value after `applyDefaultProperties`, and a key absent from the manifest
receives exactly the defaults' value for it (see the witness for the concrete
example: `{a:1}` merged with `{a:2,b:3}` gives `{a:1,b:3}`). -/
theorem C3_defaults_non_overriding (obj d : JsObj) (k : String) :
    (∀ v, getProp obj k = some v →
      getProp (applyDefaultProperties obj (some d)) k = some v) ∧
    (getProp obj k = none →
      getProp (applyDefaultProperties obj (some d)) k = getProp d k) := by
  constructor
  · intro v hv
    have hs : (getProp obj k).isSome = true := by rw [hv]; rfl
    show getProp (copyProperties d obj) k = some v
    rw [copyProperties_preserves d obj k hs, hv]
  · intro hn
    show getProp (copyProperties d obj) k = getProp d k
    exact copyProperties_absent d obj k hn

/-- C3 witness: the concrete cascade of the spec — manifest `{a:1}` with
defaults `{a:2,b:3}` keeps `a:1` and copies in `b:3`. -/
theorem C3_defaults_non_overriding_witness :
    getProp [("a", JsVal.vNum 1)] "a" = some (JsVal.vNum 1) ∧
    getProp [("a", JsVal.vNum 1)] "b" = none ∧
    getProp (applyDefaultProperties [("a", JsVal.vNum 1)]
      (some [("a", JsVal.vNum 2), ("b", JsVal.vNum 3)])) "a" = some (JsVal.vNum 1) ∧
    getProp (applyDefaultProperties [("a", JsVal.vNum 1)]
      (some [("a", JsVal.vNum 2), ("b", JsVal.vNum 3)])) "b" = some (JsVal.vNum 3) ∧
    applyDefaultProperties [("a", JsVal.vNum 1)]
      (some [("a", JsVal.vNum 2), ("b", JsVal.vNum 3)]) =
      [("a", JsVal.vNum 1), ("b", JsVal.vNum 3)] := by
  refine ⟨by decide, by decide, ?_, ?_, by decide⟩
  · exact (C3_defaults_non_overriding [("a", JsVal.vNum 1)]
      [("a", JsVal.vNum 2), ("b", JsVal.vNum 3)] "a").1 (JsVal.vNum 1) (by decide)
  · exact ((C3_defaults_non_overriding [("a", JsVal.vNum 1)]
      [("a", JsVal.vNum 2), ("b", JsVal.vNum 3)] "b").2 (by decide)).trans (by decide)

/-- C4: global defaults are applied before gameType-specific defaults, and the
gameType defaults are looked up by the possibly already-defaulted gameType:
when the table has no entry for that gameType the second step changes nothing,
and with global defaults `{gameType:"html"}` and per-type defaults
`{minPlayers:2}` for `"html"`, a manifest with neither field ends up with
`gameType:"html"` and `minPlayers:2`. -/
theorem C4_default_order (s : Settings) (m m2 : JsObj) :
    (alookup s.hftGameTypeDefaults
        (jsKeyOf (getProp (applyDefaultProperties m s.hftDefaults) "gameType")) = none →
      defaultedManifest s m = applyDefaultProperties m s.hftDefaults) ∧
    (getProp m2 "gameType" = none → getProp m2 "minPlayers" = none →
      getProp (defaultedManifest
        ⟨some [("gameType", JsVal.vStr "html")],
         [("html", [("minPlayers", JsVal.vNum 2)])], []⟩ m2) "gameType" =
        some (JsVal.vStr "html") ∧
      getProp (defaultedManifest
        ⟨some [("gameType", JsVal.vStr "html")],
         [("html", [("minPlayers", JsVal.vNum 2)])], []⟩ m2) "minPlayers" =
        some (JsVal.vNum 2)) := by
  constructor
  · intro h
    unfold defaultedManifest
    rw [h]
    rfl
  · intro h1 h2
    have hg : getProp (copyProperties [("gameType", JsVal.vStr "html")] m2) "gameType"
        = some (JsVal.vStr "html") := by
      rw [copyProperties_absent _ m2 _ h1]
      decide
    have hm : getProp (copyProperties [("gameType", JsVal.vStr "html")] m2) "minPlayers"
        = none := by
      rw [copyProperties_absent _ m2 _ h2]
      decide
    constructor
    · show getProp (applyDefaultProperties
        (copyProperties [("gameType", JsVal.vStr "html")] m2)
        (alookup [("html", [("minPlayers", JsVal.vNum 2)])]
          (jsKeyOf (getProp (copyProperties [("gameType", JsVal.vStr "html")] m2)
            "gameType")))) "gameType" = some (JsVal.vStr "html")
      rw [hg]
      show getProp (copyProperties [("minPlayers", JsVal.vNum 2)]
        (copyProperties [("gameType", JsVal.vStr "html")] m2)) "gameType" = _
      rw [copyProperties_preserves _ _ _ (by rw [hg]; rfl), hg]
    · show getProp (applyDefaultProperties
        (copyProperties [("gameType", JsVal.vStr "html")] m2)
        (alookup [("html", [("minPlayers", JsVal.vNum 2)])]
          (jsKeyOf (getProp (copyProperties [("gameType", JsVal.vStr "html")] m2)
            "gameType")))) "minPlayers" = some (JsVal.vNum 2)
      rw [hg]
      show getProp (copyProperties [("minPlayers", JsVal.vNum 2)]
        (copyProperties [("gameType", JsVal.vStr "html")] m2)) "minPlayers" = _
      rw [copyProperties_absent _ _ _ hm]
      decide

/-- C4 witness: with an unknown gameType the second cascade step is a no-op,
and the empty manifest under the spec's example defaults ends with
`gameType:"html"` and `minPlayers:2`. -/
theorem C4_default_order_witness :
    (alookup cfgDefaults.hftGameTypeDefaults
        (jsKeyOf (getProp (applyDefaultProperties [("gameType", JsVal.vStr "x")]
          cfgDefaults.hftDefaults) "gameType")) = none ∧
      defaultedManifest cfgDefaults [("gameType", JsVal.vStr "x")] =
        applyDefaultProperties [("gameType", JsVal.vStr "x")] cfgDefaults.hftDefaults) ∧
    (getProp ([] : JsObj) "gameType" = none ∧
      getProp ([] : JsObj) "minPlayers" = none ∧
      getProp (defaultedManifest ⟨some [("gameType", JsVal.vStr "html")],
        [("html", [("minPlayers", JsVal.vNum 2)])], []⟩ []) "gameType" =
        some (JsVal.vStr "html") ∧
      getProp (defaultedManifest ⟨some [("gameType", JsVal.vStr "html")],
        [("html", [("minPlayers", JsVal.vNum 2)])], []⟩ []) "minPlayers" =
        some (JsVal.vNum 2)) :=
  ⟨⟨by decide, (C4_default_order cfgDefaults [("gameType", JsVal.vStr "x")] []).1
      (by decide)⟩,
   by decide, by decide,
   ((C4_default_order cfgDefaults [("gameType", JsVal.vStr "x")] []).2
      (by decide) (by decide)).1,
   ((C4_default_order cfgDefaults [("gameType", JsVal.vStr "x")] []).2
      (by decide) (by decide)).2⟩

/-- C8: `validGameId` succeeds on a string exactly when it is a nonempty
string of at most 60 characters from the class [A-Za-z0-9_-]; otherwise it
fails with the reason determined by checking emptiness first, then the
charset, then length greater than 60. The embedding is a pure function, so
there are no side effects. -/
theorem C8_validGameId (t : String) :
    (validGameId (some (JsVal.vStr t)) = Except.ok () ↔
      (t ≠ "" ∧ (∀ c ∈ t.data, gameIdCharOK c = true) ∧ t.length ≤ 60)) ∧
    (t = "" →
      validGameId (some (JsVal.vStr t)) = Except.error "gameId not defined") ∧
    (t ≠ "" → ¬(∀ c ∈ t.data, gameIdCharOK c = true) →
      validGameId (some (JsVal.vStr t)) =
        Except.error "invalid characters in gameId only A-Z a-z 0-9 _ - allowed") ∧
    (t ≠ "" → (∀ c ∈ t.data, gameIdCharOK c = true) → t.length > 60 →
      validGameId (some (JsVal.vStr t)) =
        Except.error "gameId must be less than 60 characters") := by
  by_cases h0 : t = ""
  · subst h0
    have hv : validGameId (some (JsVal.vStr "")) =
        Except.error "gameId not defined" := rfl
    refine ⟨?_, fun _ => hv, fun h _ => absurd rfl h, fun h _ _ => absurd rfl h⟩
    rw [hv]
    constructor
    · intro h; exact Except.noConfusion h
    · rintro ⟨h, _⟩; exact absurd rfl h
  · have htr : truthy (some (JsVal.vStr t)) = true := by
      simp [truthy, h0]
    by_cases hall : t.data.all gameIdCharOK = true
    · have hre : gameIdRe t = true := by simp [gameIdRe, h0, hall]
      by_cases hlen : t.length > 60
      · have hv : validGameId (some (JsVal.vStr t)) =
            Except.error "gameId must be less than 60 characters" := by
          simp [validGameId, htr, jsKeyOf, jsToStr, hre, hlen]
        refine ⟨?_, fun he => absurd he h0,
          fun _ hc => absurd (List.all_eq_true.mp hall) hc, fun _ _ _ => hv⟩
        rw [hv]
        constructor
        · intro h; exact Except.noConfusion h
        · rintro ⟨_, _, hle⟩; exact absurd hle (by omega)
      · have hv : validGameId (some (JsVal.vStr t)) = Except.ok () := by
          simp [validGameId, htr, jsKeyOf, jsToStr, hre, hlen]
        refine ⟨?_, fun he => absurd he h0,
          fun _ hc => absurd (List.all_eq_true.mp hall) hc,
          fun _ _ hg => absurd hg hlen⟩
        rw [hv]
        exact ⟨fun _ => ⟨h0, List.all_eq_true.mp hall, by omega⟩, fun _ => rfl⟩
    · have hre : gameIdRe t = false := by simp [gameIdRe, hall]
      have hv : validGameId (some (JsVal.vStr t)) =
          Except.error "invalid characters in gameId only A-Z a-z 0-9 _ - allowed" := by
        simp [validGameId, htr, jsKeyOf, jsToStr, hre]
      refine ⟨?_, fun he => absurd he h0, fun _ _ => hv,
        fun _ hc _ => absurd (List.all_eq_true.mpr hc) hall⟩
      rw [hv]
      constructor
      · intro h; exact Except.noConfusion h
      · rintro ⟨_, hc, _⟩; exact absurd (List.all_eq_true.mpr hc) hall

/-- C8 witness: `ab-C_9` is accepted, the empty string fails with the
emptiness reason, `a!` with the charset reason, and a 61-character valid-class
string with the length reason. -/
theorem C8_validGameId_witness :
    validGameId (some (JsVal.vStr "ab-C_9")) = Except.ok () ∧
    validGameId (some (JsVal.vStr "")) = Except.error "gameId not defined" ∧
    validGameId (some (JsVal.vStr "a!")) =
      Except.error "invalid characters in gameId only A-Z a-z 0-9 _ - allowed" ∧
    validGameId (some (JsVal.vStr
      "aaaaaaaaaaaaaaaaaaaaaaaaaaaaaaaaaaaaaaaaaaaaaaaaaaaaaaaaaaaaa")) =
      Except.error "gameId must be less than 60 characters" :=
  ⟨(C8_validGameId "ab-C_9").1.mpr ⟨by decide, by decide, by decide⟩,
   (C8_validGameId "").2.1 rfl,
   (C8_validGameId "a!").2.2.1 (by decide) (by decide),
   (C8_validGameId
     "aaaaaaaaaaaaaaaaaaaaaaaaaaaaaaaaaaaaaaaaaaaaaaaaaaaaaaaaaaaaa").2.2.2
     (by decide) (by decide) (by decide)⟩

/-- C5: the claim says a `gameExecutable` whose resolved path does not lie
within the manifest's directory always makes parseGameInfo throw. The throw
does happen for the spec's own example `../bar.exe`; but the code compares
only a raw character prefix (gameinfo.js line 298), so the executable
`../foobar/x.exe` of `manExecFoobar`, which resolves to `/games/foobar/x.exe`
— outside `/games/foo`, as the `false` boolean comparisons below record — is
accepted with a full success outcome and no fault, contradicting the security
boundary stated by the spec and by the code's own comment ("make sure the
executable is the the game's folder"). -/
theorem C5_exec_escape_code_bug :
    (parseGameInfo cfgExec (some manExecBar) "/games/foo/package.json").1 =
      ParseOutcome.fault "bad path for game executable: /games/bar.exe" ∧
    pathNormalize (pathJoin "/games/foo" "../foobar/x.exe") = "/games/foobar/x.exe" ∧
    ((strTake "/games/foobar/x.exe" (strLen "/games/foo/") == "/games/foo/") = false) ∧
    (("/games/foobar/x.exe" == "/games/foo") = false) ∧
    (parseGameInfo cfgExec (some manExecFoobar) "/games/foo/package.json").1 =
      ParseOutcome.ok
        [("gameId", JsVal.vStr "foo"), ("apiVersion", JsVal.vStr "1.0.0"),
         ("gameType", JsVal.vStr "html"), ("category", JsVal.vStr "c"),
         ("minPlayers", JsVal.vNum 1),
         ("gameExecutable", JsVal.vStr "/games/foobar/x.exe"),
         ("versionSettings", JsVal.vBundle 7),
         ("basePath", JsVal.vStr "/games/foo")] := by
  exact ⟨by decide, by decide, by decide, by decide, by decide⟩

/-- C6: the executable containment check compares by raw string prefix of the
normalized path against the base directory, without a path-separator
boundary: for base `/games/foo` and gameExecutable `../foobar/x.exe` the
normalized path is `/games/foobar/x.exe`, which lies outside the game's
directory (it is neither the directory nor under `"/games/foo/"`, per the
`false` comparisons), yet its first `strLen "/games/foo"` characters equal
the base directory, the check passes, and parseGameInfo returns a successful
result with no fault thrown. -/
theorem C6_prefix_without_boundary :
    pathNormalize (pathJoin "/games/foo" "../foobar/x.exe") = "/games/foobar/x.exe" ∧
    strTake "/games/foobar/x.exe" (strLen "/games/foo") = "/games/foo" ∧
    ((strTake "/games/foobar/x.exe" (strLen "/games/foo/") == "/games/foo/") = false) ∧
    (("/games/foobar/x.exe" == "/games/foo") = false) ∧
    (parseGameInfo cfgExec (some manExecFoobar) "/games/foo/package.json").1 =
      ParseOutcome.ok
        (parseGameInfo cfgExec (some manExecFoobar) "/games/foo/package.json").2 ∧
    getProp (parseGameInfo cfgExec (some manExecFoobar) "/games/foo/package.json").2
      "gameExecutable" = some (JsVal.vStr "/games/foobar/x.exe") := by
  exact ⟨by decide, by decide, by decide, by decide, by decide, by decide⟩

/-- C1: for every manifest that reaches version resolution (section present,
validation passed, known gameType) whose apiVersion is a valid version, when
at least one key of apiVersionSettings satisfies the caret range of the
requested version, a maximum satisfying key exists (it satisfies the range
and dominates every satisfying key), its bundle is attached as
`versionSettings` on parseGameInfo's resulting manifest state, and
`needNewHFT` is falsy on the result (the manifest itself carrying none). The
witness instantiates the spec's example: keys 1.0.0/1.2.0/2.0.0, requested
1.0.0, selected key 1.2.0. -/
theorem C1_version_resolution (s : Settings) (hft0 : JsObj) (fp : String)
    (d : JsObj) (a : String) (r : SemVer)
    (hval : validateObject (defaultedManifest s hft0) = Except.ok ())
    (hgt : alookup s.hftGameTypeDefaults
      (jsKeyOf (getProp (defaultedManifest s hft0) "gameType")) = some d)
    (hapi : getProp (defaultedManifest s hft0) "apiVersion" = some (JsVal.vStr a))
    (hr : parseSemver a = some r)
    (hex : ∃ k ∈ s.apiVersionSettings.map Prod.fst, ∃ v,
      parseSemver k = some v ∧ caretSatisfies r v = true)
    (hnn : getProp (defaultedManifest s hft0) "needNewHFT" = none) :
    ∃ best bv b,
      maxSatisfying (s.apiVersionSettings.map Prod.fst) r = some best ∧
      parseSemver best = some bv ∧ caretSatisfies r bv = true ∧
      (∀ k ∈ s.apiVersionSettings.map Prod.fst, ∀ v, parseSemver k = some v →
        caretSatisfies r v = true → semverLe v bv = true) ∧
      alookup s.apiVersionSettings best = some b ∧
      getProp (parseGameInfo s (some hft0) fp).2 "versionSettings" =
        some (JsVal.vBundle b) ∧
      truthy (getProp (parseGameInfo s (some hft0) fp).2 "needNewHFT") = false := by
  obtain ⟨k, hk, v, hkp, hks⟩ := hex
  obtain ⟨best, hbest⟩ :=
    maxSatisfying_isSome (s.apiVersionSettings.map Prod.fst) r k v hk hkp hks
  obtain ⟨bv, hbp, hbs, hbmem, hmax⟩ :=
    maxSatisfying_spec (s.apiVersionSettings.map Prod.fst) r best hbest
  obtain ⟨b, hb⟩ := alookup_isSome_of_mem s.apiVersionSettings best hbmem
  have hreq : reqSemverOf (defaultedManifest s hft0) = some r := by
    simp only [reqSemverOf, hapi]
    exact hr
  have hparse : parseGameInfo s (some hft0) fp =
      hftContinue (setProp (defaultedManifest s hft0) "versionSettings"
        (JsVal.vBundle b)) (pathDirname fp) := by
    simp only [parseGameInfo, hval, afterValidate, hgt, versionStep, hreq,
      hbest, hb]
  refine ⟨best, bv, b, hbest, hbp, hbs, hmax, hb, ?_, ?_⟩
  · rw [hparse,
      hftContinue_snd _ _ _ (by decide) (by decide) (by decide) (by decide)]
    exact getProp_setProp_self _ _ _
  · rw [hparse,
      hftContinue_snd _ _ _ (by decide) (by decide) (by decide) (by decide),
      getProp_setProp_ne _ _ _ _ (by decide), hnn]
    rfl

/-- C1 witness: the spec's example — settings keyed 1.0.0, 1.2.0, 2.0.0 and a
manifest requesting 1.0.0 resolve to the key 1.2.0 (bundle 12), with
`needNewHFT` falsy on the result. -/
theorem C1_version_resolution_witness :
    (validateObject (defaultedManifest cfgThree manOne) = Except.ok () ∧
     alookup cfgThree.hftGameTypeDefaults
       (jsKeyOf (getProp (defaultedManifest cfgThree manOne) "gameType")) = some [] ∧
     getProp (defaultedManifest cfgThree manOne) "apiVersion" =
       some (JsVal.vStr "1.0.0") ∧
     parseSemver "1.0.0" = some ⟨1, 0, 0⟩ ∧
     getProp (defaultedManifest cfgThree manOne) "needNewHFT" = none) ∧
    maxSatisfying (cfgThree.apiVersionSettings.map Prod.fst) ⟨1, 0, 0⟩ =
      some "1.2.0" ∧
    getProp (parseGameInfo cfgThree (some manOne) "/games/g/package.json").2
      "versionSettings" = some (JsVal.vBundle 12) ∧
    truthy (getProp (parseGameInfo cfgThree (some manOne)
      "/games/g/package.json").2 "needNewHFT") = false := by
  have h := C1_version_resolution cfgThree manOne "/games/g/package.json"
    [] "1.0.0" ⟨1, 0, 0⟩ rfl (by decide) (by decide) rfl
    ⟨"1.0.0", by decide, ⟨1, 0, 0⟩, rfl, by decide⟩ (by decide)
  obtain ⟨best, bv, b, hbest, -, -, -, hb, hvs, hnn⟩ := h
  have hb12 : best = "1.2.0" := by
    have : maxSatisfying (cfgThree.apiVersionSettings.map Prod.fst) ⟨1, 0, 0⟩ =
        some "1.2.0" := by decide
    rw [this] at hbest
    exact (Option.some.inj hbest).symm
  subst hb12
  have hbv : b = 12 := by
    have : alookup cfgThree.apiVersionSettings "1.2.0" = some 12 := by decide
    rw [this] at hb
    exact (Option.some.inj hb).symm
  subst hbv
  exact ⟨⟨rfl, by decide, by decide, rfl, by decide⟩, hbest, hvs, hnn⟩

/-- C2: when no key of apiVersionSettings satisfies the caret range of the
requested apiVersion (and, as the spec states, the synthetic fallback version
has no entry), parseGameInfo sets `needNewHFT = true` on the manifest and
rejects it — a soft rejection, not a thrown fault; and, in general, every
manifest returned through the success outcome carries a defined
`versionSettings` bundle. -/
theorem C2_version_failure (s : Settings) (hft0 : JsObj) (fp : String)
    (d : JsObj) (a : String) (r : SemVer)
    (hval : validateObject (defaultedManifest s hft0) = Except.ok ())
    (hgt : alookup s.hftGameTypeDefaults
      (jsKeyOf (getProp (defaultedManifest s hft0) "gameType")) = some d)
    (hapi : getProp (defaultedManifest s hft0) "apiVersion" = some (JsVal.vStr a))
    (hr : parseSemver a = some r)
    (hnosat : ∀ k ∈ s.apiVersionSettings.map Prod.fst, ∀ v,
      parseSemver k = some v → caretSatisfies r v = false)
    (hsyn : alookup s.apiVersionSettings "0.0.0-unsupportedApiVersion" = none) :
    parseGameInfo s (some hft0) fp =
      (ParseOutcome.rejected,
       setProp (defaultedManifest s hft0) "needNewHFT" (JsVal.vBool true)) ∧
    (∀ (s2 : Settings) (pkg : Option JsObj) (fp2 : String) (out : JsObj),
      (parseGameInfo s2 pkg fp2).1 = ParseOutcome.ok out →
      (getProp out "versionSettings").isSome = true) := by
  constructor
  · have hreq : reqSemverOf (defaultedManifest s hft0) = some r := by
      simp only [reqSemverOf, hapi]
      exact hr
    have hnone := maxSatisfying_none (s.apiVersionSettings.map Prod.fst) r hnosat
    simp only [parseGameInfo, hval, afterValidate, hgt, versionStep, hreq,
      hnone, versionFail, hsyn]
  · intro s2 pkg fp2 out h
    cases pkg with
    | none => exact absurd h (by simp [parseGameInfo])
    | some m0 =>
      cases hv : validateObject (defaultedManifest s2 m0) with
      | error e => simp [parseGameInfo, hv] at h
      | ok u =>
        cases u
        simp only [parseGameInfo, hv] at h
        cases hgt2 : alookup s2.hftGameTypeDefaults
            (jsKeyOf (getProp (defaultedManifest s2 m0) "gameType")) with
        | none => simp [afterValidate, hgt2] at h
        | some d2 =>
          simp only [afterValidate, hgt2] at h
          cases hrq : reqSemverOf (defaultedManifest s2 m0) with
          | none => simp [versionStep, hrq] at h
          | some r2 =>
            simp only [versionStep, hrq] at h
            cases hms : maxSatisfying (s2.apiVersionSettings.map Prod.fst) r2 with
            | some best =>
              simp only [hms] at h
              cases hlk : alookup s2.apiVersionSettings best with
              | none => simp [hlk] at h
              | some b =>
                simp only [hlk] at h
                have hsnd := hftContinue_ok_snd _ _ out h
                rw [← hsnd,
                  hftContinue_snd _ _ _ (by decide) (by decide) (by decide)
                    (by decide),
                  getProp_setProp_self]
                rfl
            | none =>
              simp only [hms, versionFail] at h
              cases hlk2 : alookup s2.apiVersionSettings
                  "0.0.0-unsupportedApiVersion" with
              | none => simp [hlk2] at h
              | some b =>
                simp only [hlk2] at h
                have hsnd := hftContinue_ok_snd _ _ out h
                rw [← hsnd,
                  hftContinue_snd _ _ _ (by decide) (by decide) (by decide)
                    (by decide),
                  getProp_setProp_self]
                rfl

/-- C2 witness: the spec's failure example — keys 1.0.0/1.2.0/2.0.0 with
requested version 9.0.0 yield `needNewHFT = true` on the manifest state and a
soft rejection. -/
theorem C2_version_failure_witness :
    (validateObject (defaultedManifest cfgThree manNine) = Except.ok () ∧
     parseSemver "9.0.0" = some ⟨9, 0, 0⟩ ∧
     alookup cfgThree.apiVersionSettings "0.0.0-unsupportedApiVersion" = none) ∧
    parseGameInfo cfgThree (some manNine) "/games/g/package.json" =
      (ParseOutcome.rejected,
       setProp (defaultedManifest cfgThree manNine) "needNewHFT"
         (JsVal.vBool true)) ∧
    getProp (parseGameInfo cfgThree (some manNine) "/games/g/package.json").2
      "needNewHFT" = some (JsVal.vBool true) := by
  have h := C2_version_failure cfgThree manNine "/games/g/package.json" []
    "9.0.0" ⟨9, 0, 0⟩ rfl (by decide) (by decide) rfl
    (nosat_of_all _ _ (by decide)) (by decide)
  refine ⟨⟨rfl, rfl, by decide⟩, h.1, ?_⟩
  rw [h.1]
  decide

/-- C7: each of the four recoverable problems — missing happyFunTimes
section, a required-field validation failure, a gameType that is not a key of
hftGameTypeDefaults, and an unresolvable api version (with the spec's
assumption that the synthetic fallback key is absent) — makes parseGameInfo
return the soft rejection outcome, not a thrown fault, for every such
input. -/
theorem C7_soft_rejections (s : Settings) (fp : String) :
    (parseGameInfo s none fp).1 = ParseOutcome.rejected ∧
    (∀ (s1 : Settings) (m : JsObj) (fp1 e : String),
      validateObject (defaultedManifest s1 m) = Except.error e →
      (parseGameInfo s1 (some m) fp1).1 = ParseOutcome.rejected) ∧
    (∀ (s2 : Settings) (m : JsObj) (fp2 : String),
      validateObject (defaultedManifest s2 m) = Except.ok () →
      alookup s2.hftGameTypeDefaults
        (jsKeyOf (getProp (defaultedManifest s2 m) "gameType")) = none →
      (parseGameInfo s2 (some m) fp2).1 = ParseOutcome.rejected) ∧
    (∀ (s3 : Settings) (m : JsObj) (fp3 : String) (d : JsObj) (a : String)
      (r : SemVer),
      validateObject (defaultedManifest s3 m) = Except.ok () →
      alookup s3.hftGameTypeDefaults
        (jsKeyOf (getProp (defaultedManifest s3 m) "gameType")) = some d →
      getProp (defaultedManifest s3 m) "apiVersion" = some (JsVal.vStr a) →
      parseSemver a = some r →
      maxSatisfying (s3.apiVersionSettings.map Prod.fst) r = none →
      alookup s3.apiVersionSettings "0.0.0-unsupportedApiVersion" = none →
      (parseGameInfo s3 (some m) fp3).1 = ParseOutcome.rejected) := by
  refine ⟨rfl, ?_, ?_, ?_⟩
  · intro s1 m fp1 e hv
    simp [parseGameInfo, hv]
  · intro s2 m fp2 hv hgt
    simp [parseGameInfo, hv, afterValidate, hgt]
  · intro s3 m fp3 d a r hv hgt hapi hr hms hsyn
    have hreq : reqSemverOf (defaultedManifest s3 m) = some r := by
      simp only [reqSemverOf, hapi]
      exact hr
    simp [parseGameInfo, hv, afterValidate, hgt, versionStep, hreq, hms,
      versionFail, hsyn]

/-- C7 witness: a missing section, a manifest with no gameId, the unknown
gameType `quux`, and the unresolvable api version 9.0.0 are each softly
rejected. -/
theorem C7_soft_rejections_witness :
    (parseGameInfo cfgThree none "/p").1 = ParseOutcome.rejected ∧
    (validateObject (defaultedManifest cfgThree []) =
       Except.error "gameId: gameId not defined" ∧
     (parseGameInfo cfgThree (some []) "/p").1 = ParseOutcome.rejected) ∧
    (validateObject (defaultedManifest cfgThree manQuux) = Except.ok () ∧
     alookup cfgThree.hftGameTypeDefaults
       (jsKeyOf (getProp (defaultedManifest cfgThree manQuux) "gameType")) = none ∧
     (parseGameInfo cfgThree (some manQuux) "/p").1 = ParseOutcome.rejected) ∧
    (validateObject (defaultedManifest cfgThree manNine) = Except.ok () ∧
     maxSatisfying (cfgThree.apiVersionSettings.map Prod.fst) ⟨9, 0, 0⟩ = none ∧
     (parseGameInfo cfgThree (some manNine) "/p").1 = ParseOutcome.rejected) :=
  ⟨(C7_soft_rejections cfgThree "/p").1,
   ⟨rfl, (C7_soft_rejections cfgThree "/p").2.1 cfgThree [] "/p" _ rfl⟩,
   ⟨rfl, by decide, (C7_soft_rejections cfgThree "/p").2.2.1 cfgThree manQuux
      "/p" rfl (by decide)⟩,
   ⟨rfl, by decide, (C7_soft_rejections cfgThree "/p").2.2.2 cfgThree manNine
      "/p" [] "9.0.0" ⟨9, 0, 0⟩ rfl (by decide) (by decide) rfl (by decide)
      (by decide)⟩⟩

/-- C10: rejection is not atomic — parseGameInfo mutates the manifest object
before deciding acceptance, so a soft rejection after the defaults step
leaves the caller's object holding the merged defaults (the final state is
the defaulted manifest, not the input), and in the version-failure case
additionally `needNewHFT = true`. -/
theorem C10_mutation_on_rejection (s : Settings) (hft0 : JsObj) (fp : String) :
    (∀ e, validateObject (defaultedManifest s hft0) = Except.error e →
      parseGameInfo s (some hft0) fp =
        (ParseOutcome.rejected, defaultedManifest s hft0)) ∧
    (validateObject (defaultedManifest s hft0) = Except.ok () →
      alookup s.hftGameTypeDefaults
        (jsKeyOf (getProp (defaultedManifest s hft0) "gameType")) = none →
      parseGameInfo s (some hft0) fp =
        (ParseOutcome.rejected, defaultedManifest s hft0)) ∧
    (∀ (d : JsObj) (a : String) (r : SemVer),
      validateObject (defaultedManifest s hft0) = Except.ok () →
      alookup s.hftGameTypeDefaults
        (jsKeyOf (getProp (defaultedManifest s hft0) "gameType")) = some d →
      getProp (defaultedManifest s hft0) "apiVersion" = some (JsVal.vStr a) →
      parseSemver a = some r →
      maxSatisfying (s.apiVersionSettings.map Prod.fst) r = none →
      alookup s.apiVersionSettings "0.0.0-unsupportedApiVersion" = none →
      parseGameInfo s (some hft0) fp =
        (ParseOutcome.rejected,
         setProp (defaultedManifest s hft0) "needNewHFT" (JsVal.vBool true))) := by
  refine ⟨?_, ?_, ?_⟩
  · intro e hv
    simp [parseGameInfo, hv]
  · intro hv hgt
    simp [parseGameInfo, hv, afterValidate, hgt]
  · intro d a r hv hgt hapi hr hms hsyn
    have hreq : reqSemverOf (defaultedManifest s hft0) = some r := by
      simp only [reqSemverOf, hapi]
      exact hr
    simp [parseGameInfo, hv, afterValidate, hgt, versionStep, hreq, hms,
      versionFail, hsyn]

/-- C10 witness: a manifest without apiVersion under global defaults that
supply `minPlayers` is rejected at validation, and the caller's object has
already received the merged default — the final state differs from the
input. -/
theorem C10_mutation_on_rejection_witness :
    validateObject (defaultedManifest cfgDefaults manNoApi) =
      Except.error "apiVersion: not a valid semver" ∧
    parseGameInfo cfgDefaults (some manNoApi) "/p" =
      (ParseOutcome.rejected, defaultedManifest cfgDefaults manNoApi) ∧
    defaultedManifest cfgDefaults manNoApi =
      [("gameId", JsVal.vStr "g"), ("gameType", JsVal.vStr "html"),
       ("category", JsVal.vStr "c"), ("minPlayers", JsVal.vNum 2)] ∧
    (decide (defaultedManifest cfgDefaults manNoApi = manNoApi) = false) :=
  ⟨rfl, (C10_mutation_on_rejection cfgDefaults manNoApi "/p").1 _ rfl,
   by decide, by decide⟩

theorem hftContinue_ok_of (hft : JsObj) (base : String)
    (htr : truthy (getProp hft "gameType") = true)
    (hexec : ∀ v, getProp hft "gameExecutable" = some v →
      truthy (some v) = true → ∃ es, v = JsVal.vStr es ∧
        base = strTake (pathNormalize (pathJoin base es)) (strLen base)) :
    ∃ out, (hftContinue hft base).1 = ParseOutcome.ok out ∧
      getProp out "basePath" = some (JsVal.vStr base) := by
  have hcont : hftContinue hft base =
      execStep (fixUrl (fixUrl hft "gameUrl") "screenshotUrl") base := by
    unfold hftContinue
    rw [if_pos htr]
  rw [hcont]
  have hgeU : getProp (fixUrl (fixUrl hft "gameUrl") "screenshotUrl")
      "gameExecutable" = getProp hft "gameExecutable" := by
    rw [fixUrl_preserves (fixUrl hft "gameUrl") "screenshotUrl" "gameExecutable"
      (by decide), fixUrl_preserves hft "gameUrl" "gameExecutable" (by decide)]
  cases hge : getProp hft "gameExecutable" with
  | none =>
    refine ⟨setProp (fixUrl (fixUrl hft "gameUrl") "screenshotUrl") "basePath"
      (JsVal.vStr base), ?_, getProp_setProp_self _ _ _⟩
    have hx : getProp (fixUrl (fixUrl hft "gameUrl") "screenshotUrl")
        "gameExecutable" = none := by rw [hgeU, hge]
    simp only [execStep, hx, finishInfo]
  | some v =>
    have hx : getProp (fixUrl (fixUrl hft "gameUrl") "screenshotUrl")
        "gameExecutable" = some v := by rw [hgeU, hge]
    cases v with
    | vStr es =>
      by_cases he : es = ""
      · subst he
        refine ⟨setProp (fixUrl (fixUrl hft "gameUrl") "screenshotUrl")
          "basePath" (JsVal.vStr base), ?_, getProp_setProp_self _ _ _⟩
        simp [execStep, hx, finishInfo]
      · have htv : truthy (some (JsVal.vStr es)) = true := by
          simp [truthy, he]
        obtain ⟨es2, heq, hcheck⟩ := hexec (JsVal.vStr es) hge htv
        have hes : es = es2 := JsVal.vStr.inj heq
        rw [← hes] at hcheck
        refine ⟨setProp (setProp (fixUrl (fixUrl hft "gameUrl") "screenshotUrl")
          "gameExecutable" (JsVal.vStr (pathJoin base es))) "basePath"
          (JsVal.vStr base), ?_, getProp_setProp_self _ _ _⟩
        have hst : execStep (fixUrl (fixUrl hft "gameUrl") "screenshotUrl") base =
            execCheck (fixUrl (fixUrl hft "gameUrl") "screenshotUrl") base es := by
          simp only [execStep, hx, if_neg he]
        rw [hst]
        unfold execCheck
        rw [if_pos hcheck]
        rfl
    | vNum n =>
      by_cases hn : n = 0
      · subst hn
        refine ⟨setProp (fixUrl (fixUrl hft "gameUrl") "screenshotUrl")
          "basePath" (JsVal.vStr base), ?_, getProp_setProp_self _ _ _⟩
        have hf : truthy (some (JsVal.vNum 0)) = false := by decide
        simp only [execStep, hx, hf, if_false, Bool.false_eq_true, finishInfo]
      · have htv : truthy (some (JsVal.vNum n)) = true := by
          simp [truthy, hn]
        obtain ⟨es2, heq, -⟩ := hexec (JsVal.vNum n) hge htv
        exact JsVal.noConfusion heq
    | vBool b2 =>
      cases b2 with
      | false =>
        refine ⟨setProp (fixUrl (fixUrl hft "gameUrl") "screenshotUrl")
          "basePath" (JsVal.vStr base), ?_, getProp_setProp_self _ _ _⟩
        have hf : truthy (some (JsVal.vBool false)) = false := by decide
        simp only [execStep, hx, hf, if_false, Bool.false_eq_true, finishInfo]
      | true =>
        obtain ⟨es2, heq, -⟩ := hexec (JsVal.vBool true) hge (by decide)
        exact JsVal.noConfusion heq
    | vBundle bb =>
      obtain ⟨es2, heq, -⟩ := hexec (JsVal.vBundle bb) hge rfl
      exact JsVal.noConfusion heq

/-- C9 counterexample: the claim as stated fails when the (validly
string-typed) gameType is the empty string and the empty string is also a key
of hftGameTypeDefaults. All five required fields validate, the gameType is a
key of the table, the apiVersion is matched by a key, and there is no
gameExecutable — yet parseGameInfo rejects the manifest (the falsy-gameType
check of gameinfo.js line 269) instead of returning a non-null result. -/
theorem C9_roundtrip_counterexample :
    validateObject (defaultedManifest cfgEmptyType manEmptyType) = Except.ok () ∧
    alookup cfgEmptyType.hftGameTypeDefaults
      (jsKeyOf (getProp (defaultedManifest cfgEmptyType manEmptyType)
        "gameType")) = some [] ∧
    getProp (defaultedManifest cfgEmptyType manEmptyType) "apiVersion" =
      some (JsVal.vStr "1.0.0") ∧
    maxSatisfying (cfgEmptyType.apiVersionSettings.map Prod.fst) ⟨1, 0, 0⟩ =
      some "1.0.0" ∧
    getProp (defaultedManifest cfgEmptyType manEmptyType) "gameExecutable" =
      none ∧
    parseGameInfo cfgEmptyType (some manEmptyType) "/g/p.json" =
      (ParseOutcome.rejected,
       setProp (defaultedManifest cfgEmptyType manEmptyType) "versionSettings"
         (JsVal.vBundle 0)) :=
  ⟨rfl, by decide, by decide, by decide, by decide, by decide⟩

/-- C9 (amended): for every manifest whose five required fields validate,
whose gameType is a key of hftGameTypeDefaults *and is truthy (nonempty)*,
whose apiVersion is matched by some key of apiVersionSettings, and whose
gameExecutable — if present and truthy — is a string passing the code's
containment comparison against the game directory, parseGameInfo returns a
success result whose basePath is exactly the directory component of the
manifest file's path. (The truthiness requirement is what the counterexample
forces; the spec's own step 6 describes the falsy-gameType rejection.) -/
theorem C9_roundtrip_amended (s : Settings) (hft0 : JsObj) (fp : String)
    (d : JsObj) (a : String) (r : SemVer)
    (hval : validateObject (defaultedManifest s hft0) = Except.ok ())
    (hgt : alookup s.hftGameTypeDefaults
      (jsKeyOf (getProp (defaultedManifest s hft0) "gameType")) = some d)
    (hapi : getProp (defaultedManifest s hft0) "apiVersion" = some (JsVal.vStr a))
    (hr : parseSemver a = some r)
    (hex : ∃ k ∈ s.apiVersionSettings.map Prod.fst, ∃ v,
      parseSemver k = some v ∧ caretSatisfies r v = true)
    (htr : truthy (getProp (defaultedManifest s hft0) "gameType") = true)
    (hexec : ∀ v, getProp (defaultedManifest s hft0) "gameExecutable" = some v →
      truthy (some v) = true → ∃ es, v = JsVal.vStr es ∧
        pathDirname fp = strTake (pathNormalize (pathJoin (pathDirname fp) es))
          (strLen (pathDirname fp))) :
    ∃ out, (parseGameInfo s (some hft0) fp).1 = ParseOutcome.ok out ∧
      getProp out "basePath" = some (JsVal.vStr (pathDirname fp)) := by
  obtain ⟨k, hk, v0, hkp, hks⟩ := hex
  obtain ⟨best, hbest⟩ :=
    maxSatisfying_isSome (s.apiVersionSettings.map Prod.fst) r k v0 hk hkp hks
  obtain ⟨bv, hbp, hbs, hbmem, hmax⟩ :=
    maxSatisfying_spec (s.apiVersionSettings.map Prod.fst) r best hbest
  obtain ⟨b, hb⟩ := alookup_isSome_of_mem s.apiVersionSettings best hbmem
  have hreq : reqSemverOf (defaultedManifest s hft0) = some r := by
    simp only [reqSemverOf, hapi]
    exact hr
  have hparse : parseGameInfo s (some hft0) fp =
      hftContinue (setProp (defaultedManifest s hft0) "versionSettings"
        (JsVal.vBundle b)) (pathDirname fp) := by
    simp only [parseGameInfo, hval, afterValidate, hgt, versionStep, hreq,
      hbest, hb]
  rw [hparse]
  apply hftContinue_ok_of
  · rw [getProp_setProp_ne _ _ _ _ (by decide)]
    exact htr
  · intro v hv htv
    rw [getProp_setProp_ne _ _ _ _ (by decide)] at hv
    exact hexec v hv htv

/-- C9 witness: a manifest with the nonempty gameType `html` and an
executable `bin/app` inside the game directory is accepted, and its basePath
is exactly `pathDirname "/games/foo/package.json" = "/games/foo"`. -/
theorem C9_roundtrip_amended_witness :
    (validateObject (defaultedManifest cfgExec manExecIn) = Except.ok () ∧
     truthy (getProp (defaultedManifest cfgExec manExecIn) "gameType") = true ∧
     pathDirname "/games/foo/package.json" = "/games/foo") ∧
    (∃ out, (parseGameInfo cfgExec (some manExecIn)
        "/games/foo/package.json").1 = ParseOutcome.ok out ∧
      getProp out "basePath" =
        some (JsVal.vStr (pathDirname "/games/foo/package.json"))) := by
  refine ⟨⟨rfl, by decide, by decide⟩, ?_⟩
  exact C9_roundtrip_amended cfgExec manExecIn "/games/foo/package.json" []
    "1.0.0" ⟨1, 0, 0⟩ rfl (by decide) (by decide) rfl
    ⟨"1.0.0", by decide, ⟨1, 0, 0⟩, rfl, by decide⟩ (by decide)
    (by
      intro v hv htv
      rw [show getProp (defaultedManifest cfgExec manExecIn) "gameExecutable" =
        some (JsVal.vStr "bin/app") from by decide] at hv
      exact ⟨"bin/app", (Option.some.inj hv).symm, by decide⟩)

end GameInfoSpec
